import Mathlib

/-!
Verification of the schema-negotiation layer of the cryo freeze crate
(crates/freeze/src/types/schemas.rs): the column-selection algorithm
in compute_used_columns and the schema builder table_schema, together
with the Table accessors.

Modelling conventions. The Rust code uses indexmap IndexSet and IndexMap,
which are insertion-ordered and duplicate-free on keys; both are embedded
as plain lists whose operations reproduce the indexmap semantics exactly:
insertion appends a missing element and leaves a present one at its old
position, intersection and difference iterate the left operand in its own
order, and map insertion replaces the value of a present key in place.
-/

/-- ColumnType from schemas.rs: the datatype of a column. -/
inductive ColumnType where
  | uint32
  | uint64
  | int32
  | int64
  | float64
  | decimal128
  | string
  | binary
  | hex
deriving DecidableEq, Repr

/-- ColumnType.as_str from schemas.rs: convert ColumnType to str. -/
def ColumnType.as_str : ColumnType → String
  | ColumnType.uint32 => "uint32"
  | ColumnType.uint64 => "uint64"
  | ColumnType.int32 => "int32"
  | ColumnType.int64 => "int64"
  | ColumnType.float64 => "float64"
  | ColumnType.decimal128 => "decimal128"
  | ColumnType.string => "string"
  | ColumnType.binary => "binary"
  | ColumnType.hex => "hex"

/-- Modelled from the spec: the ColumnEncoding preference (binary versus
hex-encoded output), defined outside the provided source file. -/
inductive ColumnEncoding where
  | binary
  | hex
deriving DecidableEq, Repr

/-- SchemaError from schemas.rs: the only error of the subsystem. -/
inductive SchemaError where
  | InvalidColumn
deriving DecidableEq, Repr

/-- Modelled from the spec: a Datatype (entity) together with the data its
registry exposes, namely the ordered column-name-to-type mapping returned by
column_types (an IndexMap, so its key list is duplicate-free in the real
system) and the ordered list returned by default_columns. The registry
itself lives outside the provided source file; table_schema below consumes
it only through these two fields, exactly as the Rust code consumes
self.dataset(). -/
structure Datatype where
  name : String
  column_types : List (String × ColumnType)
  default_columns : List String
deriving DecidableEq, Repr

/-- IndexSet.insert: append a missing element, keep a present one in place. -/
def indexSetInsert (s : List String) (x : String) : List String :=
  if x ∈ s then s else s ++ [x]

/-- IndexSet.extend: insert every element of a list in order. -/
def indexSetExtend (s : List String) (xs : List String) : List String :=
  xs.foldl indexSetInsert s

/-- IndexSet::from_iter: collect a list into an IndexSet, keeping the first
occurrence of each element. -/
def indexSetFromIter (xs : List String) : List String :=
  indexSetExtend [] xs

/-- IndexSet.intersection: keep the elements of s that are in t, in the
iteration order of s. -/
def indexSetIntersection (s t : List String) : List String :=
  s.filter (fun x => decide (x ∈ t))

/-- IndexSet.difference: keep the elements of s that are not in t, in the
iteration order of s. -/
def indexSetDifference (s t : List String) : List String :=
  s.filter (fun x => decide (x ∉ t))

/-- IndexMap.get: the value stored at a key, if present. -/
def indexMapGet : List (String × ColumnType) → String → Option ColumnType
  | [], _ => none
  | (k, v) :: rest, c => if c = k then some v else indexMapGet rest c

/-- IndexMap.keys: the keys in iteration order. -/
def indexMapKeys (m : List (String × ColumnType)) : List String :=
  m.map Prod.fst

/-- IndexMap.insert: replace the value at a present key in place (the key
keeps its position), append a missing key at the end. -/
def indexMapInsert : List (String × ColumnType) → String → ColumnType →
    List (String × ColumnType)
  | [], k, v => [(k, v)]
  | (k1, v1) :: rest, k, v =>
      if k = k1 then (k1, v) :: rest else (k1, v1) :: indexMapInsert rest k v

/-- The exclude step of compute_used_columns (schemas.rs lines 139 to 142):
when an exclude list is given, collect it into an IndexSet and take the
difference. -/
def applyExclude (result_set : List String) (exclude_columns : Option (List String)) :
    List String :=
  match exclude_columns with
  | some exclude => indexSetDifference result_set (indexSetFromIter exclude)
  | none => result_set

/-- compute_used_columns from schemas.rs (lines 116 to 144). An explicit
columns list takes total precedence: the single-element all marker yields
all_columns, any other list is collected verbatim. Otherwise the working
set starts from default_columns; an include list equal to the all marker
returns all_columns immediately (skipping the exclude step, exactly as the
early return in the Rust code does), any other include list is appended and
the result intersected with all_columns; finally the exclude step runs. -/
def compute_used_columns (all_columns : List String) (default_columns : List String)
    (include_columns : Option (List String)) (exclude_columns : Option (List String))
    (columns : Option (List String)) : List String :=
  match columns with
  | some cols =>
      if cols.length = 1 ∧ "all" ∈ cols then all_columns
      else indexSetFromIter cols
  | none =>
      match include_columns with
      | some incl =>
          if incl.length = 1 ∧ "all" ∈ incl then all_columns
          else
            applyExclude
              (indexSetIntersection
                (indexSetExtend (indexSetFromIter default_columns) incl) all_columns)
              exclude_columns
      | none => applyExclude (indexSetFromIter default_columns) exclude_columns

/-- Table from schemas.rs: the resolved schema, an ordered column-name-to-type
mapping plus the datatype and the sort columns. -/
structure Table where
  columns : List (String × ColumnType)
  datatype : Datatype
  sort_columns : Option (List String)
deriving DecidableEq, Repr

/-- Table.has_column from schemas.rs. -/
def Table.has_column (t : Table) (column : String) : Bool :=
  decide (column ∈ indexMapKeys t.columns)

/-- Table.column_type from schemas.rs. -/
def Table.column_type (t : Table) (column : String) : Option ColumnType :=
  indexMapGet t.columns column

/-- Table.columns() from schemas.rs: the ordered column names (named colNames
here because the field holding the mapping is already named columns). -/
def Table.colNames (t : Table) : List String :=
  indexMapKeys t.columns

/-- The all_columns value computed in table_schema (schemas.rs line 94):
the registry keys collected into an IndexSet. -/
def Datatype.allColumns (self : Datatype) : List String :=
  indexSetFromIter (indexMapKeys self.column_types)

/-- The used_columns value computed in table_schema (schemas.rs lines 96
to 102). -/
def Datatype.usedColumns (self : Datatype) (include_columns : Option (List String))
    (exclude_columns : Option (List String)) (columns : Option (List String)) :
    List String :=
  compute_used_columns self.allColumns self.default_columns include_columns
    exclude_columns columns

/-- The loop of table_schema (schemas.rs lines 103 to 110): look each used
column up in the registry mapping, fail with InvalidColumn when absent,
rewrite Binary to Hex when the encoding preference is Hex, and insert into
the result map. -/
def buildColumns (column_types : List (String × ColumnType))
    (binary_column_format : ColumnEncoding) :
    List String → List (String × ColumnType) →
      Except SchemaError (List (String × ColumnType))
  | [], acc => Except.ok acc
  | column :: rest, acc =>
      match indexMapGet column_types column with
      | none => Except.error SchemaError.InvalidColumn
      | some ctype =>
          buildColumns column_types binary_column_format rest
            (indexMapInsert acc column
              (if binary_column_format = ColumnEncoding.hex ∧ ctype = ColumnType.binary
                then ColumnType.hex else ctype))

/-- Datatype.table_schema from schemas.rs (lines 85 to 113). -/
def Datatype.table_schema (self : Datatype) (binary_column_format : ColumnEncoding)
    (include_columns : Option (List String)) (exclude_columns : Option (List String))
    (columns : Option (List String)) (sort : Option (List String)) :
    Except SchemaError Table :=
  match buildColumns self.column_types binary_column_format
      (self.usedColumns include_columns exclude_columns columns) [] with
  | Except.error e => Except.error e
  | Except.ok cols =>
      Except.ok { columns := cols, datatype := self, sort_columns := sort }

/-- A concrete registry used to instantiate the general theorems, shaped
after the Blocks datatype exercised by the tests in schemas.rs. -/
def blocksRegistry : Datatype where
  name := "blocks"
  column_types :=
    [("number", ColumnType.uint32), ("hash", ColumnType.binary),
     ("author", ColumnType.binary), ("gas_used", ColumnType.uint64),
     ("extra_data", ColumnType.binary), ("timestamp", ColumnType.uint64),
     ("base_fee_per_gas", ColumnType.uint64), ("chain_id", ColumnType.uint64),
     ("receipts_root", ColumnType.binary), ("transactions_root", ColumnType.binary)]
  default_columns :=
    ["number", "hash", "author", "gas_used", "extra_data", "timestamp",
     "base_fee_per_gas"]

/-! ### Properties of the embedded indexmap operations -/

theorem mem_indexSetInsert (s : List String) (x y : String) :
    y ∈ indexSetInsert s x ↔ y ∈ s ∨ y = x := by
  unfold indexSetInsert
  by_cases h : x ∈ s
  · simp only [if_pos h]
    constructor
    · exact fun hy => Or.inl hy
    · rintro (hy | rfl)
      · exact hy
      · exact h
  · simp [if_neg h]

theorem nodup_indexSetInsert (s : List String) (x : String) (h : s.Nodup) :
    (indexSetInsert s x).Nodup := by
  unfold indexSetInsert
  by_cases hx : x ∈ s
  · simpa [if_pos hx] using h
  · simp [if_neg hx, List.nodup_append, h, hx]

theorem mem_indexSetExtend (l : List String) (s : List String) (y : String) :
    y ∈ indexSetExtend s l ↔ y ∈ s ∨ y ∈ l := by
  induction l generalizing s with
  | nil => simp [indexSetExtend]
  | cons a l ih =>
      show y ∈ indexSetExtend (indexSetInsert s a) l ↔ _
      rw [ih, mem_indexSetInsert]
      simp [or_assoc]

theorem nodup_indexSetExtend (l : List String) (s : List String) (h : s.Nodup) :
    (indexSetExtend s l).Nodup := by
  induction l generalizing s with
  | nil => exact h
  | cons a l ih => exact ih (indexSetInsert s a) (nodup_indexSetInsert s a h)

theorem mem_indexSetFromIter (l : List String) (y : String) :
    y ∈ indexSetFromIter l ↔ y ∈ l := by
  simp [indexSetFromIter, mem_indexSetExtend]

theorem nodup_indexSetFromIter (l : List String) : (indexSetFromIter l).Nodup :=
  nodup_indexSetExtend l [] List.nodup_nil

theorem indexSetExtend_eq_append (l : List String) (s : List String) (hl : l.Nodup)
    (hd : ∀ x ∈ l, x ∉ s) : indexSetExtend s l = s ++ l := by
  induction l generalizing s with
  | nil => simp [indexSetExtend]
  | cons a l ih =>
      have ha : a ∉ s := hd a (List.mem_cons_self a l)
      show indexSetExtend (indexSetInsert s a) l = _
      rw [show indexSetInsert s a = s ++ [a] from if_neg ha]
      rw [ih (s ++ [a]) hl.of_cons]
      · simp
      · intro x hx
        simp only [List.mem_append, List.mem_singleton]
        rintro (hxs | rfl)
        · exact hd x (List.mem_cons_of_mem a hx) hxs
        · exact (List.nodup_cons.mp hl).1 hx

theorem indexSetFromIter_eq_self (l : List String) (hl : l.Nodup) :
    indexSetFromIter l = l := by
  rw [indexSetFromIter, indexSetExtend_eq_append l [] hl (by simp)]
  simp

theorem indexSetExtend_append (s l₁ l₂ : List String) :
    indexSetExtend s (l₁ ++ l₂) = indexSetExtend (indexSetExtend s l₁) l₂ := by
  simp [indexSetExtend, List.foldl_append]

theorem indexSetFromIter_append (l₁ l₂ : List String) :
    indexSetFromIter (l₁ ++ l₂) = indexSetExtend (indexSetFromIter l₁) l₂ := by
  unfold indexSetFromIter
  exact indexSetExtend_append [] l₁ l₂

theorem indexMapGet_eq_none (m : List (String × ColumnType)) (c : String) :
    indexMapGet m c = none ↔ c ∉ indexMapKeys m := by
  induction m with
  | nil => simp [indexMapGet, indexMapKeys]
  | cons p m ih =>
      obtain ⟨k, v⟩ := p
      by_cases h : c = k <;> simp [indexMapGet, indexMapKeys, h, ih]

theorem indexMapGet_isSome (m : List (String × ColumnType)) (c : String) :
    (indexMapGet m c).isSome = true ↔ c ∈ indexMapKeys m := by
  cases h : indexMapGet m c with
  | none =>
      have hn := (indexMapGet_eq_none m c).mp h
      simp [hn]
  | some v =>
      simp only [Option.isSome_some, true_iff]
      by_contra hc
      rw [(indexMapGet_eq_none m c).mpr hc] at h
      cases h

theorem indexMapGet_indexMapInsert (m : List (String × ColumnType)) (k : String)
    (v : ColumnType) (c : String) :
    indexMapGet (indexMapInsert m k v) c = if c = k then some v else indexMapGet m c := by
  induction m with
  | nil =>
      by_cases h : c = k
      · subst h
        simp [indexMapInsert, indexMapGet]
      · simp [indexMapInsert, indexMapGet, h]
  | cons p m ih =>
      obtain ⟨k1, v1⟩ := p
      by_cases h1 : k = k1
      · subst h1
        by_cases h2 : c = k
        · subst h2
          simp [indexMapInsert, indexMapGet]
        · simp [indexMapInsert, indexMapGet, h2]
      · by_cases h2 : c = k1
        · subst h2
          have h2s : ¬ c = k := fun h => h1 h.symm
          simp [indexMapInsert, indexMapGet, h1, h2s]
        · simp [indexMapInsert, indexMapGet, h1, h2, ih]

theorem indexMapKeys_indexMapInsert (m : List (String × ColumnType)) (k : String)
    (v : ColumnType) :
    indexMapKeys (indexMapInsert m k v) = indexSetInsert (indexMapKeys m) k := by
  induction m with
  | nil => simp [indexMapInsert, indexSetInsert, indexMapKeys]
  | cons p m ih =>
      obtain ⟨k1, v1⟩ := p
      by_cases h1 : k = k1
      · subst h1
        simp [indexMapInsert, indexSetInsert, indexMapKeys]
      · have h1s : ¬ k1 = k := fun h => h1 h.symm
        simp only [indexMapInsert, if_neg h1, indexMapKeys, List.map_cons] at *
        rw [ih]
        unfold indexSetInsert
        by_cases hk : k ∈ List.map Prod.fst m
        · simp [hk, h1s]
        · have : ¬ k ∈ k1 :: List.map Prod.fst m := by
            simp [h1, hk]
          simp [hk, this]

/-! ### Properties of the schema-building loop and of table_schema -/

theorem buildColumns_error_iff (ct : List (String × ColumnType)) (e : ColumnEncoding)
    (used : List String) (acc : List (String × ColumnType)) :
    buildColumns ct e used acc = Except.error SchemaError.InvalidColumn
      ↔ ∃ c ∈ used, indexMapGet ct c = none := by
  induction used generalizing acc with
  | nil => simp [buildColumns]
  | cons c rest ih =>
      cases hg : indexMapGet ct c with
      | none => simp [buildColumns, hg]
      | some t => simp [buildColumns, hg, ih]

theorem buildColumns_ok_iff (ct : List (String × ColumnType)) (e : ColumnEncoding)
    (used : List String) (acc : List (String × ColumnType)) :
    (∃ m, buildColumns ct e used acc = Except.ok m)
      ↔ ∀ c ∈ used, (indexMapGet ct c).isSome = true := by
  induction used generalizing acc with
  | nil => simp [buildColumns]
  | cons c rest ih =>
      cases hg : indexMapGet ct c with
      | none => simp [buildColumns, hg]
      | some t => simp [buildColumns, hg, ih]

theorem buildColumns_keys (ct : List (String × ColumnType)) (e : ColumnEncoding)
    (used : List String) (acc m : List (String × ColumnType))
    (h : buildColumns ct e used acc = Except.ok m) :
    indexMapKeys m = indexSetExtend (indexMapKeys acc) used := by
  induction used generalizing acc with
  | nil =>
      simp [buildColumns] at h
      subst h
      rfl
  | cons c rest ih =>
      cases hg : indexMapGet ct c with
      | none => simp [buildColumns, hg] at h
      | some t =>
          simp only [buildColumns, hg] at h
          rw [ih _ h, indexMapKeys_indexMapInsert]
          rfl

theorem buildColumns_get (ct : List (String × ColumnType)) (e : ColumnEncoding)
    (used : List String) (acc m : List (String × ColumnType))
    (h : buildColumns ct e used acc = Except.ok m) (c : String) :
    indexMapGet m c
      = if c ∈ used
          then (indexMapGet ct c).map
            (fun t => if e = ColumnEncoding.hex ∧ t = ColumnType.binary
              then ColumnType.hex else t)
          else indexMapGet acc c := by
  induction used generalizing acc with
  | nil =>
      simp [buildColumns] at h
      subst h
      simp
  | cons u rest ih =>
      cases hg : indexMapGet ct u with
      | none => simp [buildColumns, hg] at h
      | some t =>
          simp only [buildColumns, hg] at h
          have hrec := ih _ h
          by_cases hcr : c ∈ rest
          · simp only [hrec, if_pos hcr]
            simp [List.mem_cons, hcr]
          · by_cases hcu : c = u
            · subst hcu
              rw [hrec, if_neg hcr, indexMapGet_indexMapInsert, if_pos rfl]
              simp [hg]
            · rw [hrec, if_neg hcr, indexMapGet_indexMapInsert, if_neg hcu]
              simp [List.mem_cons, hcu, hcr]

theorem table_schema_ok_elim (d : Datatype) (e : ColumnEncoding)
    (inc exc cols sort : Option (List String)) (tbl : Table)
    (h : d.table_schema e inc exc cols sort = Except.ok tbl) :
    buildColumns d.column_types e (d.usedColumns inc exc cols) [] = Except.ok tbl.columns
      ∧ tbl.datatype = d ∧ tbl.sort_columns = sort := by
  unfold Datatype.table_schema at h
  cases hb : buildColumns d.column_types e (d.usedColumns inc exc cols) [] with
  | error er => rw [hb] at h; cases h
  | ok m =>
      rw [hb] at h
      cases h
      exact ⟨rfl, rfl, rfl⟩

theorem table_schema_error_iff (d : Datatype) (e : ColumnEncoding)
    (inc exc cols sort : Option (List String)) :
    d.table_schema e inc exc cols sort = Except.error SchemaError.InvalidColumn
      ↔ ∃ c ∈ d.usedColumns inc exc cols, indexMapGet d.column_types c = none := by
  rw [← buildColumns_error_iff d.column_types e (d.usedColumns inc exc cols) []]
  unfold Datatype.table_schema
  cases hb : buildColumns d.column_types e (d.usedColumns inc exc cols) [] with
  | error er => cases er; simp
  | ok m => simp

theorem table_schema_ok_iff (d : Datatype) (e : ColumnEncoding)
    (inc exc cols sort : Option (List String)) :
    (∃ tbl, d.table_schema e inc exc cols sort = Except.ok tbl)
      ↔ ∀ c ∈ d.usedColumns inc exc cols, (indexMapGet d.column_types c).isSome = true := by
  rw [← buildColumns_ok_iff d.column_types e (d.usedColumns inc exc cols) []]
  unfold Datatype.table_schema
  cases hb : buildColumns d.column_types e (d.usedColumns inc exc cols) [] with
  | error er => simp
  | ok m => simp

theorem table_schema_colNames (d : Datatype) (e : ColumnEncoding)
    (inc exc cols sort : Option (List String)) (tbl : Table)
    (h : d.table_schema e inc exc cols sort = Except.ok tbl) :
    tbl.colNames = indexSetFromIter (d.usedColumns inc exc cols) := by
  have hb := (table_schema_ok_elim d e inc exc cols sort tbl h).1
  have hk := buildColumns_keys d.column_types e (d.usedColumns inc exc cols) [] tbl.columns hb
  simpa [Table.colNames, indexMapKeys, indexSetFromIter] using hk

theorem mem_usedColumns_of_allColumns (d : Datatype) (c : String)
    (hc : c ∈ d.allColumns) : (indexMapGet d.column_types c).isSome = true := by
  rw [indexMapGet_isSome]
  rw [Datatype.allColumns, mem_indexSetFromIter] at hc
  exact hc

theorem mem_indexSetIntersection (s t : List String) (y : String) :
    y ∈ indexSetIntersection s t ↔ y ∈ s ∧ y ∈ t := by
  simp [indexSetIntersection]

theorem mem_indexSetDifference (s t : List String) (y : String) :
    y ∈ indexSetDifference s t ↔ y ∈ s ∧ y ∉ t := by
  simp [indexSetDifference]

theorem mem_of_mem_applyExclude (s : List String) (exc : Option (List String))
    (y : String) (h : y ∈ applyExclude s exc) : y ∈ s := by
  cases exc with
  | none => exact h
  | some ex => exact ((mem_indexSetDifference s (indexSetFromIter ex) y).mp h).1

theorem indexSetDifference_congr (s t1 t2 : List String)
    (h : ∀ x, x ∈ t1 ↔ x ∈ t2) : indexSetDifference s t1 = indexSetDifference s t2 := by
  unfold indexSetDifference
  apply List.filter_congr
  intro a _
  exact decide_eq_decide.mpr (not_congr (h a))

theorem applyExclude_removes (s : List String) (ex : List String) (x : String)
    (hx : x ∈ ex) : x ∉ applyExclude s (some ex) := by
  intro hmem
  exact ((mem_indexSetDifference s (indexSetFromIter ex) x).mp hmem).2
    ((mem_indexSetFromIter ex x).mpr hx)

theorem applyExclude_noop (s : List String) (ex : List String)
    (h : ∀ x ∈ ex, x ∉ s) : applyExclude s (some ex) = s := by
  show indexSetDifference s (indexSetFromIter ex) = s
  unfold indexSetDifference
  rw [List.filter_eq_self]
  intro a ha
  rw [decide_eq_true_iff, mem_indexSetFromIter]
  exact fun hae => h a hae ha

/-! ### The claims -/

/-- Claim C1: for every entity and every encoding preference, table_schema with
include, exclude and explicit columns all absent produces a Table whose column
list is exactly the registry default columns, same membership and same order.
The hypotheses state the registry contract: the default list is duplicate-free
and each default column is present in the type mapping. -/
theorem table_schema_defaults (d : Datatype) (enc : ColumnEncoding)
    (sort : Option (List String)) (hnd : d.default_columns.Nodup)
    (hvalid : ∀ c ∈ d.default_columns, (indexMapGet d.column_types c).isSome = true) :
    ∃ tbl, d.table_schema enc none none none sort = Except.ok tbl
      ∧ tbl.colNames = d.default_columns := by
  have hused : d.usedColumns none none none = d.default_columns := by
    simp only [Datatype.usedColumns, compute_used_columns, applyExclude]
    exact indexSetFromIter_eq_self _ hnd
  obtain ⟨tbl, htbl⟩ := (table_schema_ok_iff d enc none none none sort).mpr
    (by rw [hused]; exact hvalid)
  refine ⟨tbl, htbl, ?_⟩
  rw [table_schema_colNames d enc none none none sort tbl htbl, hused,
    indexSetFromIter_eq_self _ hnd]

/-- Witness for claim C1 at a concrete registry. -/
theorem table_schema_defaults_witness :
    ∃ tbl, blocksRegistry.table_schema ColumnEncoding.hex none none none none
        = Except.ok tbl
      ∧ tbl.colNames = blocksRegistry.default_columns :=
  table_schema_defaults blocksRegistry ColumnEncoding.hex none (by decide) (by decide)

/-- Claim C2: an explicit columns list equal to the single-element all marker,
or an absent explicit list with an include list equal to the marker, yields the
full column universe in its canonical order, regardless of every other
parameter, in particular of any exclude list. -/
theorem all_marker_full_universe (ac dc : List String) (inc exc : Option (List String)) :
    compute_used_columns ac dc inc exc (some ["all"]) = ac
      ∧ compute_used_columns ac dc (some ["all"]) exc none = ac := by
  constructor
  · simp [compute_used_columns]
  · simp [compute_used_columns]

/-- Claim C3 counterexample: the explicit list is collected into an IndexSet,
so a duplicated valid name collapses and the resulting column list differs
from the explicit list in count, refuting the claim for lists with repeated
names. -/
theorem table_schema_explicit_duplicate_counterexample :
    (indexMapGet blocksRegistry.column_types "number").isSome = true
      ∧ Except.map Table.colNames
          (blocksRegistry.table_schema ColumnEncoding.hex none none
            (some ["number", "number"]) none)
        = Except.ok ["number"]
      ∧ (["number"] : List String) ≠ ["number", "number"] :=
  ⟨by decide, by rfl, by decide⟩

/-- Claim C3 (amended): for every duplicate-free explicit list L that is not
the single-element all marker and contains only names present in the registry
type mapping, table_schema succeeds and the resulting column list equals L
exactly, same names, same order, same count. -/
theorem table_schema_explicit (d : Datatype) (enc : ColumnEncoding)
    (inc exc sort : Option (List String)) (L : List String)
    (hmarker : ¬(L.length = 1 ∧ "all" ∈ L)) (hnd : L.Nodup)
    (hvalid : ∀ c ∈ L, (indexMapGet d.column_types c).isSome = true) :
    ∃ tbl, d.table_schema enc inc exc (some L) sort = Except.ok tbl
      ∧ tbl.colNames = L := by
  have hused : d.usedColumns inc exc (some L) = L := by
    simp only [Datatype.usedColumns, compute_used_columns]
    rw [if_neg hmarker]
    exact indexSetFromIter_eq_self _ hnd
  obtain ⟨tbl, htbl⟩ := (table_schema_ok_iff d enc inc exc (some L) sort).mpr
    (by rw [hused]; exact hvalid)
  refine ⟨tbl, htbl, ?_⟩
  rw [table_schema_colNames d enc inc exc (some L) sort tbl htbl, hused,
    indexSetFromIter_eq_self _ hnd]

/-- Witness for claim C3 at a concrete registry and explicit list. -/
theorem table_schema_explicit_witness :
    ∃ tbl, blocksRegistry.table_schema ColumnEncoding.hex none none
        (some ["number", "hash"]) none = Except.ok tbl
      ∧ tbl.colNames = ["number", "hash"] :=
  table_schema_explicit blocksRegistry ColumnEncoding.hex none none none
    ["number", "hash"] (by decide) (by decide) (by decide)

/-- Claim C4: table_schema returns the InvalidColumn error exactly when some
name in the selected column set has no entry in the registry type mapping, and
returns Ok with a Table in every other case; InvalidColumn is the only error
the subsystem can produce since SchemaError has no other constructor. -/
theorem table_schema_invalid_column_iff (d : Datatype) (enc : ColumnEncoding)
    (inc exc cols sort : Option (List String)) :
    (d.table_schema enc inc exc cols sort = Except.error SchemaError.InvalidColumn
        ↔ ∃ c ∈ d.usedColumns inc exc cols, indexMapGet d.column_types c = none)
      ∧ ((∃ tbl, d.table_schema enc inc exc cols sort = Except.ok tbl)
        ↔ ∀ c ∈ d.usedColumns inc exc cols, (indexMapGet d.column_types c).isSome = true) :=
  ⟨table_schema_error_iff d enc inc exc cols sort,
   table_schema_ok_iff d enc inc exc cols sort⟩

/-- Claim C5: with the explicit list absent and a non-marker include list, the
selected set is a subset of the registry column universe, any included name
outside the universe is silently dropped, and the call does not error: the
resulting Table exists and does not contain the unknown name. -/
theorem include_unknown_dropped (d : Datatype) (enc : ColumnEncoding)
    (exc sort : Option (List String)) (incl : List String) (x : String)
    (hmarker : ¬(incl.length = 1 ∧ "all" ∈ incl)) (hx : x ∉ d.allColumns) :
    (∀ y ∈ d.usedColumns (some incl) exc none, y ∈ d.allColumns)
      ∧ x ∉ d.usedColumns (some incl) exc none
      ∧ ∃ tbl, d.table_schema enc (some incl) exc none sort = Except.ok tbl
          ∧ tbl.has_column x = false := by
  have hused : d.usedColumns (some incl) exc none
      = applyExclude
          (indexSetIntersection
            (indexSetExtend (indexSetFromIter d.default_columns) incl) d.allColumns)
          exc := by
    simp only [Datatype.usedColumns, compute_used_columns]
    rw [if_neg hmarker]
  have hsub : ∀ y ∈ d.usedColumns (some incl) exc none, y ∈ d.allColumns := by
    intro y hy
    rw [hused] at hy
    exact ((mem_indexSetIntersection _ _ y).mp (mem_of_mem_applyExclude _ _ y hy)).2
  refine ⟨hsub, fun hmem => hx (hsub x hmem), ?_⟩
  obtain ⟨tbl, htbl⟩ := (table_schema_ok_iff d enc (some incl) exc none sort).mpr
    (fun c hc => mem_usedColumns_of_allColumns d c (hsub c hc))
  refine ⟨tbl, htbl, ?_⟩
  have hnx : x ∉ tbl.colNames := by
    rw [table_schema_colNames d enc (some incl) exc none sort tbl htbl,
      mem_indexSetFromIter]
    exact fun hmem => hx (hsub x hmem)
  exact decide_eq_false hnx

/-- Witness for claim C5 at a concrete registry: the unknown include name
foo_bar is dropped without an error. -/
theorem include_unknown_dropped_witness :
    (∀ y ∈ blocksRegistry.usedColumns (some ["chain_id", "foo_bar"]) none none,
        y ∈ blocksRegistry.allColumns)
      ∧ "foo_bar" ∉ blocksRegistry.usedColumns (some ["chain_id", "foo_bar"]) none none
      ∧ ∃ tbl, blocksRegistry.table_schema ColumnEncoding.hex
            (some ["chain_id", "foo_bar"]) none none none = Except.ok tbl
          ∧ tbl.has_column "foo_bar" = false :=
  include_unknown_dropped blocksRegistry ColumnEncoding.hex none none
    ["chain_id", "foo_bar"] "foo_bar" (by decide) (by decide)

/-- Claim C6 counterexample: when the include list is exactly the all marker,
the code returns the full column universe immediately and the exclude step
never runs, so over a registry that has a column literally named all, the name
all can appear in both the include and the exclude list and still be present
in the final set, refuting the claim as stated. -/
theorem exclude_after_include_counterexample :
    compute_used_columns ["all", "number"] ["number"] (some ["all"]) (some ["all"]) none
        = ["all", "number"]
      ∧ "all" ∈ (["all"] : List String)
      ∧ "all" ∈ compute_used_columns ["all", "number"] ["number"] (some ["all"])
          (some ["all"]) none := by decide

/-- Claim C6 (amended): when the explicit list is absent, an exclude list is
provided, and the include list, when present, is not exactly the single-element
all marker (that marker returns the full set immediately and skips exclusion),
the exclude step removes every excluded name from the final set, and when no
excluded name occurs in the working set the exclusion is a no-op. -/
theorem exclude_wins_nonmarker (ac dc : List String) (inc : Option (List String))
    (ex : List String)
    (hmarker : ∀ l, inc = some l → ¬(l.length = 1 ∧ "all" ∈ l)) :
    (∀ x ∈ ex, x ∉ compute_used_columns ac dc inc (some ex) none)
      ∧ ((∀ x ∈ ex, x ∉ compute_used_columns ac dc inc none none) →
          compute_used_columns ac dc inc (some ex) none
            = compute_used_columns ac dc inc none none) := by
  cases inc with
  | none =>
      have h1 : compute_used_columns ac dc none (some ex) none
          = applyExclude (indexSetFromIter dc) (some ex) := by
        simp only [compute_used_columns]
      have h2 : compute_used_columns ac dc none none none = indexSetFromIter dc := by
        simp only [compute_used_columns, applyExclude]
      rw [h1, h2]
      exact ⟨fun x hx => applyExclude_removes _ ex x hx,
        fun h => applyExclude_noop _ ex h⟩
  | some l =>
      have hm := hmarker l rfl
      have h1 : compute_used_columns ac dc (some l) (some ex) none
          = applyExclude
              (indexSetIntersection
                (indexSetExtend (indexSetFromIter dc) l) ac) (some ex) := by
        simp only [compute_used_columns]
        rw [if_neg hm]
      have h2 : compute_used_columns ac dc (some l) none none
          = indexSetIntersection (indexSetExtend (indexSetFromIter dc) l) ac := by
        simp only [compute_used_columns]
        rw [if_neg hm]
        rfl
      rw [h1, h2]
      exact ⟨fun x hx => applyExclude_removes _ ex x hx,
        fun h => applyExclude_noop _ ex h⟩

/-- Witness for claim C6 at concrete lists: the name a is included and
excluded, and exclusion wins. -/
theorem exclude_wins_nonmarker_witness :
    (∀ x ∈ (["a"] : List String),
        x ∉ compute_used_columns ["a", "b"] ["b"] (some ["a"]) (some ["a"]) none)
      ∧ ((∀ x ∈ (["a"] : List String),
            x ∉ compute_used_columns ["a", "b"] ["b"] (some ["a"]) none none) →
          compute_used_columns ["a", "b"] ["b"] (some ["a"]) (some ["a"]) none
            = compute_used_columns ["a", "b"] ["b"] (some ["a"]) none none) :=
  exclude_wins_nonmarker ["a", "b"] ["b"] (some ["a"]) ["a"]
    (by intro l h; cases h; decide)

/-- Claim C7: in a Table produced by table_schema, a selected column whose
native registry type is Binary is reported as Hex when the encoding preference
is hex, and every other combination of native type and preference is reported
unchanged. -/
theorem hex_override (d : Datatype) (enc : ColumnEncoding)
    (inc exc cols sort : Option (List String)) (tbl : Table) (c : String)
    (t0 : ColumnType)
    (hok : d.table_schema enc inc exc cols sort = Except.ok tbl)
    (hget : indexMapGet d.column_types c = some t0)
    (hc : tbl.has_column c = true) :
    tbl.column_type c
      = some (if enc = ColumnEncoding.hex ∧ t0 = ColumnType.binary
          then ColumnType.hex else t0) := by
  have hb := (table_schema_ok_elim d enc inc exc cols sort tbl hok).1
  have hg := buildColumns_get d.column_types enc (d.usedColumns inc exc cols) []
    tbl.columns hb c
  by_cases hcu : c ∈ d.usedColumns inc exc cols
  · show indexMapGet tbl.columns c = _
    rw [hg, if_pos hcu, hget]
    rfl
  · exfalso
    rw [if_neg hcu] at hg
    have hnone : indexMapGet tbl.columns c = none := by simpa [indexMapGet] using hg
    exact (indexMapGet_eq_none _ _).mp hnone (of_decide_eq_true hc)

/-- Witness for claim C7: the hash column of the concrete registry is Binary
and is reported as Hex under the hex preference. -/
theorem hex_override_witness :
    Table.column_type
        ⟨[("hash", ColumnType.hex)], blocksRegistry, none⟩ "hash"
      = some (if ColumnEncoding.hex = ColumnEncoding.hex
            ∧ ColumnType.binary = ColumnType.binary
          then ColumnType.hex else ColumnType.binary) :=
  hex_override blocksRegistry ColumnEncoding.hex none none (some ["hash"]) none
    ⟨[("hash", ColumnType.hex)], blocksRegistry, none⟩ "hash" ColumnType.binary
    (by rfl) (by rfl) (by decide)

/-- Claim C8 counterexample: with defaults a over the universe a, b, c, the
include lists c-then-b and b-then-c produce differently ordered results, and
the first result does not follow the registry-canonical order, refuting the
claim that the order never depends on the include list order. -/
theorem include_order_counterexample :
    compute_used_columns ["a", "b", "c"] ["a"] (some ["c", "b"]) none none
        = ["a", "c", "b"]
      ∧ compute_used_columns ["a", "b", "c"] ["a"] (some ["b", "c"]) none none
        = ["a", "b", "c"]
      ∧ (["a", "c", "b"] : List String) ≠ ["a", "b", "c"] := by decide

/-- Claim C8 (amended): when the explicit list is absent and a non-marker
include list is given, the result order is the working-set insertion order,
namely the first occurrences of the default list followed by the include list,
filtered to registry membership and then to the exclusions; only the order of
the exclude list has no effect on the result. -/
theorem include_order_insertion (ac dc : List String) (incl : List String)
    (exc : Option (List String)) (hmarker : ¬(incl.length = 1 ∧ "all" ∈ incl)) :
    compute_used_columns ac dc (some incl) exc none
        = applyExclude
            ((indexSetFromIter (dc ++ incl)).filter (fun x => decide (x ∈ ac))) exc
      ∧ ∀ ex1 ex2 : List String, (∀ x, x ∈ ex1 ↔ x ∈ ex2) →
          compute_used_columns ac dc (some incl) (some ex1) none
            = compute_used_columns ac dc (some incl) (some ex2) none := by
  constructor
  · simp only [compute_used_columns]
    rw [if_neg hmarker, indexSetFromIter_append]
    rfl
  · intro ex1 ex2 hiff
    simp only [compute_used_columns]
    rw [if_neg hmarker, if_neg hmarker]
    show indexSetDifference _ (indexSetFromIter ex1)
      = indexSetDifference _ (indexSetFromIter ex2)
    apply indexSetDifference_congr
    intro x
    rw [mem_indexSetFromIter, mem_indexSetFromIter]
    exact hiff x

/-- Witness for claim C8 at concrete lists. -/
theorem include_order_insertion_witness :
    compute_used_columns ["a", "b", "c"] ["a"] (some ["c", "b"]) none none
        = applyExclude
            ((indexSetFromIter (["a"] ++ ["c", "b"])).filter
              (fun x => decide (x ∈ (["a", "b", "c"] : List String)))) none
      ∧ ∀ ex1 ex2 : List String, (∀ x, x ∈ ex1 ↔ x ∈ ex2) →
          compute_used_columns ["a", "b", "c"] ["a"] (some ["c", "b"]) (some ex1) none
            = compute_used_columns ["a", "b", "c"] ["a"] (some ["c", "b"]) (some ex2)
                none :=
  include_order_insertion ["a", "b", "c"] ["a"] ["c", "b"] none (by decide)

/-- Claim C9: a list that is not exactly the single-element all marker is never
expanded to the full universe: as an explicit list it is collected verbatim
into the duplicate-free selection, and as an include list it goes through the
ordinary append-then-intersect-then-exclude processing. -/
theorem non_marker_literal (ac dc : List String) (inc exc : Option (List String))
    (l : List String) (hmarker : ¬(l.length = 1 ∧ "all" ∈ l)) :
    compute_used_columns ac dc inc exc (some l) = indexSetFromIter l
      ∧ compute_used_columns ac dc (some l) exc none
        = applyExclude
            ((indexSetFromIter (dc ++ l)).filter (fun x => decide (x ∈ ac))) exc := by
  constructor
  · simp only [compute_used_columns]
    rw [if_neg hmarker]
  · simp only [compute_used_columns]
    rw [if_neg hmarker, indexSetFromIter_append]
    rfl

/-- Witness for claim C9 at the two-element list containing all and foo. -/
theorem non_marker_literal_witness :
    compute_used_columns ["a"] ["d"] none none (some ["all", "foo"])
        = indexSetFromIter ["all", "foo"]
      ∧ compute_used_columns ["a"] ["d"] (some ["all", "foo"]) none none
        = applyExclude
            ((indexSetFromIter (["d"] ++ ["all", "foo"])).filter
              (fun x => decide (x ∈ (["a"] : List String)))) none :=
  non_marker_literal ["a"] ["d"] none none ["all", "foo"] (by decide)

/-- Claim C10: in every Table produced by table_schema, the three accessors
agree: has_column holds exactly when the name is among the column names and
exactly when column_type is present, and the column names are pairwise
distinct. -/
theorem table_accessor_coherence (d : Datatype) (enc : ColumnEncoding)
    (inc exc cols sort : Option (List String)) (tbl : Table)
    (hok : d.table_schema enc inc exc cols sort = Except.ok tbl) :
    (∀ c, (tbl.has_column c = true ↔ c ∈ tbl.colNames)
        ∧ (tbl.has_column c = true ↔ (tbl.column_type c).isSome = true))
      ∧ tbl.colNames.Nodup := by
  constructor
  · intro c
    constructor
    · exact decide_eq_true_iff
    · rw [show tbl.has_column c = decide (c ∈ indexMapKeys tbl.columns) from rfl,
        decide_eq_true_iff]
      exact (indexMapGet_isSome tbl.columns c).symm
  · rw [table_schema_colNames d enc inc exc cols sort tbl hok]
    exact nodup_indexSetFromIter _

/-- Witness for claim C10 at a concrete resolved Table. -/
theorem table_accessor_coherence_witness :
    (∀ c, ((⟨[("number", ColumnType.uint32), ("hash", ColumnType.binary),
            ("author", ColumnType.binary), ("gas_used", ColumnType.uint64),
            ("extra_data", ColumnType.binary), ("timestamp", ColumnType.uint64),
            ("base_fee_per_gas", ColumnType.uint64)], blocksRegistry,
            none⟩ : Table).has_column c = true
          ↔ c ∈ (⟨[("number", ColumnType.uint32), ("hash", ColumnType.binary),
            ("author", ColumnType.binary), ("gas_used", ColumnType.uint64),
            ("extra_data", ColumnType.binary), ("timestamp", ColumnType.uint64),
            ("base_fee_per_gas", ColumnType.uint64)], blocksRegistry,
            none⟩ : Table).colNames)
        ∧ ((⟨[("number", ColumnType.uint32), ("hash", ColumnType.binary),
            ("author", ColumnType.binary), ("gas_used", ColumnType.uint64),
            ("extra_data", ColumnType.binary), ("timestamp", ColumnType.uint64),
            ("base_fee_per_gas", ColumnType.uint64)], blocksRegistry,
            none⟩ : Table).has_column c = true
          ↔ ((⟨[("number", ColumnType.uint32), ("hash", ColumnType.binary),
            ("author", ColumnType.binary), ("gas_used", ColumnType.uint64),
            ("extra_data", ColumnType.binary), ("timestamp", ColumnType.uint64),
            ("base_fee_per_gas", ColumnType.uint64)], blocksRegistry,
            none⟩ : Table).column_type c).isSome = true))
      ∧ (⟨[("number", ColumnType.uint32), ("hash", ColumnType.binary),
            ("author", ColumnType.binary), ("gas_used", ColumnType.uint64),
            ("extra_data", ColumnType.binary), ("timestamp", ColumnType.uint64),
            ("base_fee_per_gas", ColumnType.uint64)], blocksRegistry,
            none⟩ : Table).colNames.Nodup :=
  table_accessor_coherence blocksRegistry ColumnEncoding.binary none none none none
    ⟨[("number", ColumnType.uint32), ("hash", ColumnType.binary),
      ("author", ColumnType.binary), ("gas_used", ColumnType.uint64),
      ("extra_data", ColumnType.binary), ("timestamp", ColumnType.uint64),
      ("base_fee_per_gas", ColumnType.uint64)], blocksRegistry, none⟩ (by rfl)
